import Mathlib

/-!
Shallow embedding of the credential-store module `auth.py`.

The module owns an in-memory store mapping usernames to records
{password_hash, user_id, email} and exposes `hash_password`,
`authenticate`, `get_user`, `add_user`, `remove_user`.

Python dictionaries are modelled as association lists with unique keys;
`hashlib.sha256(...).hexdigest()` is modelled by an executable SHA-256
(FIPS 180-4) over the UTF-8 byte encoding of the input, hex-encoded in
lowercase.  Arguments that Python callers may pass as `None` are modelled
as `Option` values (`none` = Python `None`).
-/

namespace Auth

/-! ### SHA-256 core, modelling `hashlib.sha256` -/

/-- The word modulus of SHA-256, 2^32. -/
def w32 : Nat := 2 ^ 32

/-- Right rotation of a 32-bit word (input assumed < 2^32). -/
def ror32 (x n : Nat) : Nat := x / 2 ^ n + x % 2 ^ n * 2 ^ (32 - n)

/-- SHA-256 Σ0. -/
def bigSigma0 (x : Nat) : Nat := ror32 x 2 ^^^ ror32 x 13 ^^^ ror32 x 22

/-- SHA-256 Σ1. -/
def bigSigma1 (x : Nat) : Nat := ror32 x 6 ^^^ ror32 x 11 ^^^ ror32 x 25

/-- SHA-256 σ0. -/
def smallSigma0 (x : Nat) : Nat := ror32 x 7 ^^^ ror32 x 18 ^^^ x / 2 ^ 3

/-- SHA-256 σ1. -/
def smallSigma1 (x : Nat) : Nat := ror32 x 17 ^^^ ror32 x 19 ^^^ x / 2 ^ 10

/-- SHA-256 Ch(e,f,g) = (e ∧ f) ⊕ (¬e ∧ g), complement taken in 32 bits. -/
def chB (e f g : Nat) : Nat := (e &&& f) ^^^ ((w32 - 1 - e % w32) &&& g)

/-- SHA-256 Maj(a,b,c). -/
def majB (a b c : Nat) : Nat := (a &&& b) ^^^ (a &&& c) ^^^ (b &&& c)

/-- The 64 SHA-256 round constants. -/
def sha256K : List Nat :=
  [1116352408, 1899447441, 3049323471, 3921009573, 961987163, 1508970993,
   2453635748, 2870763221, 3624381080, 310598401, 607225278, 1426881987,
   1925078388, 2162078206, 2614888103, 3248222580, 3835390401, 4022224774,
   264347078, 604807628, 770255983, 1249150122, 1555081692, 1996064986,
   2554220882, 2821834349, 2952996808, 3210313671, 3336571891, 3584528711,
   113926993, 338241895, 666307205, 773529912, 1294757372, 1396182291,
   1695183700, 1986661051, 2177026350, 2456956037, 2730485921, 2820302411,
   3259730800, 3345764771, 3516065817, 3600352804, 4094571909, 275423344,
   430227734, 506948616, 659060556, 883997877, 958139571, 1322822218,
   1537002063, 1747873779, 1955562222, 2024104815, 2227730452, 2361852424,
   2428436474, 2756734187, 3204031479, 3329325298]

/-- The initial SHA-256 hash value H(0). -/
def sha256Init : List Nat :=
  [1779033703, 3144134277, 1013904242, 2773480762,
   1359893119, 2600822924, 528734635, 1541459225]

/-- Working state of the compression function. -/
structure Hs where
  a : Nat
  b : Nat
  c : Nat
  d : Nat
  e : Nat
  f : Nat
  g : Nat
  hh : Nat
deriving DecidableEq

/-- One round of the SHA-256 compression function on constant/schedule pair `kw`. -/
def sha256Round (st : Hs) (kw : Nat × Nat) : Hs :=
  let t1 := (st.hh + bigSigma1 st.e + chB st.e st.f st.g + kw.1 + kw.2) % w32
  let t2 := (bigSigma0 st.a + majB st.a st.b st.c) % w32
  { a := (t1 + t2) % w32, b := st.a, c := st.b, d := st.c,
    e := (st.d + t1) % w32, f := st.e, g := st.f, hh := st.g }

/-- Big-endian 32-bit word from four bytes. -/
def beWord (b0 b1 b2 b3 : Nat) : Nat := ((b0 * 256 + b1) * 256 + b2) * 256 + b3

/-- The 16 initial message-schedule words of a 64-byte chunk. -/
def chunkWords (chunk : List Nat) : List Nat :=
  (List.range 16).map fun i =>
    beWord (chunk.getD (4 * i) 0) (chunk.getD (4 * i + 1) 0)
      (chunk.getD (4 * i + 2) 0) (chunk.getD (4 * i + 3) 0)

/-- Extend the 16 schedule words to 64. -/
def extendWords (ws : List Nat) : List Nat :=
  (List.range 48).foldl
    (fun acc _ =>
      let n := acc.length
      acc ++ [(acc.getD (n - 16) 0 + smallSigma0 (acc.getD (n - 15) 0) + acc.getD (n - 7) 0 +
        smallSigma1 (acc.getD (n - 2) 0)) % w32])
    ws

/-- Process one 64-byte chunk: run 64 rounds and add the result to the hash value. -/
def sha256Chunk (hsl : List Nat) (chunk : List Nat) : List Nat :=
  let ws := extendWords (chunkWords chunk)
  let st0 : Hs := { a := hsl.getD 0 0, b := hsl.getD 1 0, c := hsl.getD 2 0, d := hsl.getD 3 0,
                    e := hsl.getD 4 0, f := hsl.getD 5 0, g := hsl.getD 6 0, hh := hsl.getD 7 0 }
  let st := (sha256K.zip ws).foldl sha256Round st0
  [(hsl.getD 0 0 + st.a) % w32, (hsl.getD 1 0 + st.b) % w32, (hsl.getD 2 0 + st.c) % w32,
   (hsl.getD 3 0 + st.d) % w32, (hsl.getD 4 0 + st.e) % w32, (hsl.getD 5 0 + st.f) % w32,
   (hsl.getD 6 0 + st.g) % w32, (hsl.getD 7 0 + st.hh) % w32]

/-- Big-endian 8-byte encoding of the 64-bit message bit length. -/
def beBytes8 (x : Nat) : List Nat :=
  [x / 2 ^ 56 % 256, x / 2 ^ 48 % 256, x / 2 ^ 40 % 256, x / 2 ^ 32 % 256,
   x / 2 ^ 24 % 256, x / 2 ^ 16 % 256, x / 2 ^ 8 % 256, x % 256]

/-- Big-endian 4-byte encoding of a 32-bit word. -/
def beBytes4 (x : Nat) : List Nat :=
  [x / 2 ^ 24 % 256, x / 2 ^ 16 % 256, x / 2 ^ 8 % 256, x % 256]

/-- SHA-256 padding: append 0x80, zero bytes to 56 mod 64, then the bit length. -/
def sha256Pad (msg : List Nat) : List Nat :=
  msg ++ [0x80] ++ List.replicate ((119 - msg.length % 64) % 64) 0 ++ beBytes8 (msg.length * 8)

/-- SHA-256 digest (32 bytes) of a byte list. -/
def sha256 (msg : List Nat) : List Nat :=
  let padded := sha256Pad msg
  let chunks := (List.range (padded.length / 64)).map fun i => (padded.drop (64 * i)).take 64
  let finalH := chunks.foldl sha256Chunk sha256Init
  (finalH.map beBytes4).flatten

/-- The sixteen lowercase hexadecimal digit characters. -/
def hexChars : List Char := "0123456789abcdef".data

/-- The lowercase hexadecimal digit for `n` (< 16). -/
def hexDigitChar (n : Nat) : Char := hexChars.getD n '0'

/-- Two lowercase hex characters for one byte. -/
def byteToHex (b : Nat) : List Char := [hexDigitChar (b / 16 % 16), hexDigitChar (b % 16)]

/-- Lowercase hex encoding of a byte list, as in `.hexdigest()`. -/
def bytesToHex (bs : List Nat) : String := String.mk ((bs.map byteToHex).flatten)

/-- UTF-8 encoding of one Unicode scalar value, as in `str.encode()`. -/
def utf8EncodeChar (c : Char) : List Nat :=
  let n := c.toNat
  if n < 0x80 then [n]
  else if n < 0x800 then [0xc0 + n / 0x40, 0x80 + n % 0x40]
  else if n < 0x10000 then [0xe0 + n / 0x1000, 0x80 + n / 0x40 % 0x40, 0x80 + n % 0x40]
  else [0xf0 + n / 0x40000, 0x80 + n / 0x1000 % 0x40, 0x80 + n / 0x40 % 0x40, 0x80 + n % 0x40]

/-- UTF-8 encoding of a string (`password.encode()` in the source). -/
def utf8Encode (s : String) : List Nat := (s.data.map utf8EncodeChar).flatten

/-- `hash_password(password)`: `hashlib.sha256(password.encode()).hexdigest()`
(src/auth.py lines 22-31). -/
def hash_password (password : String) : String := bytesToHex (sha256 (utf8Encode password))

/-! ### The credential store -/

/-- A value of the credential store: `{"password_hash": ..., "user_id": ..., "email": ...}`. -/
structure UserRecord where
  password_hash : String
  user_id : Nat
  email : String
deriving DecidableEq

/-- The credential store, a Python dict modelled as an association list with
unique keys, in insertion order. -/
abbrev Store := List (String × UserRecord)

/-- Dict states have unique keys. -/
def StoreWF (s : Store) : Prop := (s.map Prod.fst).Nodup

instance (s : Store) : Decidable (StoreWF s) := by unfold StoreWF; infer_instance

/-- The seed store `USER_STORE` (src/auth.py lines 8-19): alice and bob. -/
def USER_STORE : Store :=
  [("alice", { password_hash := hash_password "alice123", user_id := 1,
               email := "alice@example.com" }),
   ("bob", { password_hash := hash_password "bob456", user_id := 2,
             email := "bob@example.com" })]

/-- Python truthiness of an optional string: `None` and `""` are falsy. -/
def falsy : Option String → Bool
  | none => true
  | some s => s == ""

/-- `max([user["user_id"] for user in USER_STORE.values()], default=0)`
(src/auth.py line 85). -/
def maxUserId (s : Store) : Nat := ((s.map fun e => e.2.user_id).max?).getD 0

/-- `authenticate(username, password)` (src/auth.py lines 34-52).  Arguments may
be Python `None` (`none` here); `if not username or not password: return False`,
then dict lookup, then hash comparison. -/
def authenticate (username password : Option String) (s : Store) : Bool :=
  if falsy username || falsy password then false
  else
    match s.lookup (username.getD "") with
    | none => false
    | some user => hash_password (password.getD "") == user.password_hash

/-- `get_user`'s static two-entry profile table (src/auth.py lines 64-67). -/
structure ProfileRecord where
  id : Nat
  name : String
  email : String
deriving DecidableEq

/-- The hardcoded `users` dict inside `get_user`. -/
def profileTable : List (Nat × ProfileRecord) :=
  [(1, { id := 1, name := "alice", email := "alice@example.com" }),
   (2, { id := 2, name := "bob", email := "bob@example.com" })]

/-- `get_user(user_id)` (src/auth.py lines 55-68): `users.get(user_id)` on the
static table; the id may be Python `None`. -/
def get_user (user_id : Option Nat) : Option ProfileRecord :=
  match user_id with
  | none => none
  | some i => profileTable.lookup i

/-- `add_user(username, password, email)` (src/auth.py lines 71-91).  Returns
the boolean result and the store after the call. -/
def add_user (username password email : String) (s : Store) : Bool × Store :=
  if (s.lookup username).isSome then (false, s)
  else
    (true, s ++ [(username,
      { password_hash := hash_password password,
        user_id := maxUserId s + 1,
        email := email })])

/-- `remove_user(username)` (src/auth.py lines 94-106): `del USER_STORE[username]`
removes the entry with that key. -/
def remove_user (username : String) (s : Store) : Bool × Store :=
  if (s.lookup username).isSome then (true, s.eraseP fun e => e.1 == username)
  else (false, s)

/-- Stores reachable from the seed `USER_STORE` by any sequence of module calls.
`authenticate` and `get_user` are pure reads and do not change the store, so
only `add_user` and `remove_user` appear as steps. -/
inductive Reachable : Store → Prop
  | seed : Reachable USER_STORE
  | add (u p e : String) {s : Store} : Reachable s → Reachable (add_user u p e s).2
  | remove (u : String) {s : Store} : Reachable s → Reachable (remove_user u s).2

/-! ### Dynamic-typing model

Python is dynamically typed: any argument may be `None`, and `None` may even
become a dict key.  The following model makes the `None` paths of each
operation explicit; a raised exception (Python `AttributeError` from
`None.encode()`) is modelled as `Except.error`. -/

/-- A record of the dynamic model; the email may be Python `None`. -/
structure DUserRecord where
  password_hash : String
  user_id : Nat
  email : Option String
deriving DecidableEq

/-- Store of the dynamic model: the dict key may be Python `None`. -/
abbrev DStore := List (Option String × DUserRecord)

/-- `max(..., default=0)` over the dynamic store. -/
def maxUserIdD (s : DStore) : Nat := ((s.map fun e => e.2.user_id).max?).getD 0

/-- `hash_password` under dynamic typing: `None.encode()` raises
`AttributeError`; on a string it returns the digest (src/auth.py line 31). -/
def hash_passwordD : Option String → Except String String
  | none => Except.error "AttributeError"
  | some p => Except.ok (hash_password p)

/-- `authenticate` under dynamic typing: the falsiness guard runs before any
hashing, so `None` arguments never reach `password.encode()`. -/
def authenticateD (username password : Option String) (s : DStore) : Except String Bool :=
  if falsy username || falsy password then Except.ok false
  else
    match s.lookup username with
    | none => Except.ok false
    | some user => do
        let hp ← hash_passwordD password
        pure (hp == user.password_hash)

/-- `get_user` under dynamic typing: `dict.get` never raises on a hashable
key, including `None`. -/
def get_userD (user_id : Option Nat) : Except String (Option ProfileRecord) :=
  Except.ok (get_user user_id)

/-- `add_user` under dynamic typing: the duplicate check runs first; a fresh
username with a `None` password reaches `hash_password(None)` and raises. -/
def add_userD (username password email : Option String) (s : DStore) :
    Except String (Bool × DStore) :=
  if (s.lookup username).isSome then Except.ok (false, s)
  else do
    let hp ← hash_passwordD password
    pure (true, s ++ [(username,
      { password_hash := hp, user_id := maxUserIdD s + 1, email := email })])

/-- `remove_user` under dynamic typing: `in` and `del` never raise on a
hashable key, including `None`. -/
def remove_userD (username : Option String) (s : DStore) : Except String (Bool × DStore) :=
  if (s.lookup username).isSome then
    Except.ok (true, s.eraseP fun e => e.1 == username)
  else Except.ok (false, s)

/-! ### Validation of the SHA-256 model against published test vectors -/

/-- FIPS 180-4 test vector: SHA-256 of the empty message. -/
theorem sha256_empty_vector :
    hash_password "" = "e3b0c44298fc1c149afbf4c8996fb92427ae41e4649b934ca495991b7852b855" := by
  rfl

/-- FIPS 180-4 test vector: SHA-256 of "abc". -/
theorem sha256_abc_vector :
    hash_password "abc" = "ba7816bf8f01cfea414140de5dae2223b00361a396177a9cb410ff61f20015ad" := by
  rfl

/-! ### Shape lemmas for the digest -/

/-- One compression step always yields an 8-word hash value. -/
theorem sha256Chunk_length (hsl chunk : List Nat) : (sha256Chunk hsl chunk).length = 8 := rfl

/-- Folding compression steps over any chunk list keeps 8 words. -/
theorem foldl_sha256Chunk_length :
    ∀ (cs : List (List Nat)) (hsl : List Nat), hsl.length = 8 →
      (cs.foldl sha256Chunk hsl).length = 8
  | [], _, hlen => hlen
  | c :: cs, hsl, _ => by
    simp only [List.foldl_cons]
    exact foldl_sha256Chunk_length cs (sha256Chunk hsl c) (sha256Chunk_length hsl c)

/-- Serialising words to big-endian bytes quadruples the length. -/
theorem length_flatten_map_beBytes4 (l : List Nat) :
    ((l.map beBytes4).flatten).length = 4 * l.length := by
  induction l with
  | nil => rfl
  | cons x t ih => simp only [List.map_cons, List.flatten_cons, List.length_append, ih,
      List.length_cons, beBytes4, List.length_cons, List.length_nil]; omega

/-- The digest of any message is exactly 32 bytes. -/
theorem sha256_length (msg : List Nat) : (sha256 msg).length = 32 := by
  simp only [sha256]
  rw [length_flatten_map_beBytes4, foldl_sha256Chunk_length _ sha256Init rfl]

/-- Big-endian serialisation produces bytes. -/
theorem beBytes4_lt (x : Nat) : ∀ b ∈ beBytes4 x, b < 256 := by
  intro b hb
  simp only [beBytes4, List.mem_cons, List.not_mem_nil, or_false] at hb
  rcases hb with rfl | rfl | rfl | rfl <;> exact Nat.mod_lt _ (by norm_num)

/-- Every entry of a digest is a byte. -/
theorem sha256_byte_lt (msg : List Nat) : ∀ b ∈ sha256 msg, b < 256 := by
  intro b hb
  simp only [sha256, List.mem_flatten, List.mem_map] at hb
  obtain ⟨l, ⟨x, _, rfl⟩, hbl⟩ := hb
  exact beBytes4_lt x b hbl

/-- The hex digit of any index is one of the sixteen lowercase hex characters. -/
theorem hexDigitChar_mem (n : Nat) : hexDigitChar n ∈ hexChars := by
  unfold hexDigitChar
  rcases Nat.lt_or_ge n 16 with h | h
  · have hlen : n < hexChars.length := by simpa [hexChars] using h
    rw [List.getD_eq_getElem?_getD, List.getElem?_eq_getElem hlen]
    exact List.getElem_mem hlen
  · have hlen : hexChars.length ≤ n := by simpa [hexChars] using h
    rw [List.getD_eq_getElem?_getD, List.getElem?_eq_none hlen]
    decide

/-- Hex encoding doubles the length. -/
theorem bytesToHex_length (bs : List Nat) : (bytesToHex bs).length = 2 * bs.length := by
  show ((bs.map byteToHex).flatten).length = 2 * bs.length
  induction bs with
  | nil => rfl
  | cons x t ih => simp only [List.map_cons, List.flatten_cons, List.length_append, ih,
      byteToHex, List.length_cons, List.length_nil]; omega

/-- Every character of a hex encoding is a lowercase hex character. -/
theorem bytesToHex_chars (bs : List Nat) : ∀ c ∈ (bytesToHex bs).data, c ∈ hexChars := by
  intro c hc
  have hc' : c ∈ (bs.map byteToHex).flatten := hc
  simp only [List.mem_flatten, List.mem_map] at hc'
  obtain ⟨l, ⟨x, _, rfl⟩, hcl⟩ := hc'
  simp only [byteToHex, List.mem_cons, List.not_mem_nil, or_false] at hcl
  rcases hcl with rfl | rfl <;> exact hexDigitChar_mem _

/-- C8: `hash_password` is deterministic and side-effect-free; it returns the
lowercase hex encoding of the 32-byte SHA-256 digest of the UTF-8 encoding of
the input (including the empty string), a string of exactly 64 lowercase
hexadecimal characters, and equal inputs yield equal outputs. -/
theorem hash_password_sha256_hex (p : String) :
    hash_password p = bytesToHex (sha256 (utf8Encode p)) ∧
    (sha256 (utf8Encode p)).length = 32 ∧
    (∀ b ∈ sha256 (utf8Encode p), b < 256) ∧
    (hash_password p).length = 64 ∧
    (∀ c ∈ (hash_password p).data, c ∈ hexChars) ∧
    (∀ q : String, p = q → hash_password p = hash_password q) := by
  refine ⟨rfl, sha256_length _, sha256_byte_lt _, ?_, bytesToHex_chars _, fun q hpq => by rw [hpq]⟩
  show (bytesToHex (sha256 (utf8Encode p))).length = 64
  rw [bytesToHex_length, sha256_length]

/-- Spot check of `hash_password_sha256_hex` at the concrete input "abc". -/
theorem hash_password_sha256_hex_spot :
    (hash_password "abc").length = 64 ∧ 'b' ∈ hexChars :=
  ⟨(hash_password_sha256_hex "abc").2.2.2.1,
   (hash_password_sha256_hex "abc").2.2.2.2.1 'b' (by rw [sha256_abc_vector]; decide)⟩

/-! ### Store lemmas -/

/-- A key that is not among the first components cannot be looked up. -/
theorem lookup_eq_none_of_not_mem_keys {s : Store} {u : String}
    (h : u ∉ s.map Prod.fst) : s.lookup u = none := by
  rw [List.lookup_eq_none_iff]
  intro p hp
  simp only [bne_iff_ne, ne_eq]
  intro hup
  exact h (hup ▸ List.mem_map_of_mem Prod.fst hp)

/-- After inserting a fresh username at the end, looking it up finds the new
record. -/
theorem lookup_append_singleton {s : Store} {u : String} (r : UserRecord)
    (hu : s.lookup u = none) : (s ++ [(u, r)]).lookup u = some r := by
  rw [List.lookup_append, hu]
  simp

/-- On a successful `add_user`, the new record is found under the new
username. -/
theorem add_user_lookup_self {s : Store} {u : String} (p e : String)
    (hu : s.lookup u = none) :
    ((add_user u p e s).2).lookup u =
      some { password_hash := hash_password p, user_id := maxUserId s + 1, email := e } := by
  have hbool : (s.lookup u).isSome = false := by rw [hu]; rfl
  simp only [add_user, hbool, Bool.false_eq_true, if_false]
  exact lookup_append_singleton _ hu

/-- Deleting a key from a unique-key store makes it absent. -/
theorem lookup_eraseP_self {s : Store} (u : String) (hwf : StoreWF s) :
    (s.eraseP fun e => e.1 == u).lookup u = none := by
  induction s with
  | nil => rfl
  | cons kv t ih =>
    obtain ⟨k, v⟩ := kv
    simp only [StoreWF, List.map_cons, List.nodup_cons] at hwf
    obtain ⟨hk, hnd⟩ := hwf
    by_cases hku : k = u
    · subst hku
      rw [List.eraseP_cons_of_pos (by simp)]
      exact lookup_eq_none_of_not_mem_keys hk
    · rw [List.eraseP_cons_of_neg (by simpa using hku)]
      rw [List.lookup_cons]
      have : (u == k) = false := beq_eq_false_iff_ne.mpr (fun h => hku h.symm)
      rw [this]
      exact ih hnd

/-- C4: `get_user` reads only the fixed two-entry profile table, which is
independent of the credential store: id 1 yields alice's profile, id 2 yields
bob's, and every other id (including Python `None`) yields `None`.  The table
takes no store argument, so its results are unaffected by any `add_user`. -/
theorem get_user_static (x : Option Nat) :
    get_user (some 1) = some { id := 1, name := "alice", email := "alice@example.com" } ∧
    get_user (some 2) = some { id := 2, name := "bob", email := "bob@example.com" } ∧
    get_user none = none ∧
    (x ≠ some 1 → x ≠ some 2 → get_user x = none) := by
  refine ⟨rfl, rfl, rfl, ?_⟩
  intro h1 h2
  match x with
  | none => rfl
  | some i =>
    have hi1 : (i == 1) = false := beq_eq_false_iff_ne.mpr (fun h => h1 (by rw [h]))
    have hi2 : (i == 2) = false := beq_eq_false_iff_ne.mpr (fun h => h2 (by rw [h]))
    simp [get_user, profileTable, List.lookup, hi1, hi2]

/-- Spot check of `get_user_static`: id 999 is not in the table, and id 3 is
not in the table even after a successful `add_user`. -/
theorem get_user_static_spot :
    get_user (some 999) = none ∧
    ((add_user "charlie" "charlie789" "charlie@example.com" USER_STORE).1 = true ∧
      get_user (some 3) = none) :=
  ⟨(get_user_static (some 999)).2.2.2 (by decide) (by decide),
   rfl, (get_user_static (some 3)).2.2.2 (by decide) (by decide)⟩

/-- C5: `add_user` on an already-present username returns `False` and leaves
the store completely unchanged, so authentication against that username is
unaffected; in particular the original password still authenticates. -/
theorem add_user_existing (s : Store) (u p e : String)
    (hu : (s.lookup u).isSome = true) :
    add_user u p e s = (false, s) ∧
    (∀ q : Option String,
      authenticate (some u) q (add_user u p e s).2 = authenticate (some u) q s) := by
  have h1 : add_user u p e s = (false, s) := by simp [add_user, hu]
  exact ⟨h1, fun q => by rw [h1]⟩

/-- Spot check of `add_user_existing`: re-adding alice fails, and alice's
original password still authenticates afterwards. -/
theorem add_user_existing_spot :
    add_user "alice" "newpassword" "new@example.com" USER_STORE = (false, USER_STORE) ∧
    authenticate (some "alice") (some "alice123")
      (add_user "alice" "newpassword" "new@example.com" USER_STORE).2 = true := by
  have h := add_user_existing USER_STORE "alice" "newpassword" "new@example.com" (by decide)
  refine ⟨h.1, ?_⟩
  rw [h.2 (some "alice123")]
  decide

/-- C6: `authenticate` returns `False` whenever the username is falsy (empty
string or Python `None`) or the password is falsy, regardless of the other
argument and of the store contents. -/
theorem authenticate_falsy (s : Store) (username password : Option String) :
    ((username = none ∨ username = some "") → authenticate username password s = false) ∧
    ((password = none ∨ password = some "") → authenticate username password s = false) := by
  constructor
  · rintro (rfl | rfl) <;> simp [authenticate, falsy]
  · rintro (rfl | rfl) <;> simp [authenticate, falsy]

/-- Spot check of `authenticate_falsy` on the seed store. -/
theorem authenticate_falsy_spot :
    authenticate none (some "password") USER_STORE = false ∧
    authenticate (some "alice") (some "") USER_STORE = false :=
  ⟨(authenticate_falsy USER_STORE none (some "password")).1 (Or.inl rfl),
   (authenticate_falsy USER_STORE (some "alice") (some "")).2 (Or.inr rfl)⟩

/-! ### Lemmas about the assigned user id -/

/-- Every user id in the store is bounded by `maxUserId`. -/
theorem le_maxUserId_of_mem_ids {s : Store} {x : Nat}
    (h : x ∈ s.map fun e => e.2.user_id) : x ≤ maxUserId s := by
  obtain ⟨m, hm⟩ := Option.isSome_iff_exists.mp (List.isSome_max?_of_mem h)
  have hle := (List.max?_eq_some_iff'.mp hm).2 _ h
  simpa [maxUserId, hm] using hle

/-- On a nonempty store, `maxUserId` is one of the stored user ids. -/
theorem maxUserId_mem {s : Store} (h : s ≠ []) :
    maxUserId s ∈ s.map fun e => e.2.user_id := by
  have hne : (s.map fun e => e.2.user_id) ≠ [] := by simpa using h
  obtain ⟨x, hx⟩ := List.exists_mem_of_ne_nil _ hne
  obtain ⟨m, hm⟩ := Option.isSome_iff_exists.mp (List.isSome_max?_of_mem hx)
  have hmem := (List.max?_eq_some_iff'.mp hm).1
  simpa [maxUserId, hm] using hmem

/-- C1 counterexample: the claim quantifies over every password `p` and every
absent username `u`, but a fresh username added with the empty password (or an
empty username added with any password) yields `add_user = True` while
`authenticate` with those very credentials is `False`, because the falsiness
guard rejects them. -/
theorem add_accepts_empty_credentials_cex :
    (add_user "charlie" "" "charlie@example.com" USER_STORE).1 = true ∧
    authenticate (some "charlie") (some "")
      (add_user "charlie" "" "charlie@example.com" USER_STORE).2 = false ∧
    (add_user "" "pw123" "empty@example.com" USER_STORE).1 = true ∧
    authenticate (some "") (some "pw123")
      (add_user "" "pw123" "empty@example.com" USER_STORE).2 = false :=
  ⟨rfl, rfl, rfl, rfl⟩

/-- C1 (amended): for every store, every nonempty username `u` not present and
every nonempty password `p`, after `add_user u p e` returns `True`,
`authenticate u p` returns `True`, and `authenticate u p'` returns `False` for
every nonempty `p'` whose SHA-256 hash differs from that of `p`. -/
theorem authenticate_after_add (s : Store) (u p p' e : String)
    (hu : s.lookup u = none) (hune : u ≠ "") (hpne : p ≠ "")
    (hp'ne : p' ≠ "") (hdiff : hash_password p' ≠ hash_password p) :
    (add_user u p e s).1 = true ∧
    authenticate (some u) (some p) (add_user u p e s).2 = true ∧
    authenticate (some u) (some p') (add_user u p e s).2 = false := by
  have hbool : (s.lookup u).isSome = false := by rw [hu]; rfl
  have hlook := add_user_lookup_self (s := s) (u := u) p e hu
  have hfu : falsy (some u) = false := by simp [falsy, hune]
  have hfp : falsy (some p) = false := by simp [falsy, hpne]
  have hfp' : falsy (some p') = false := by simp [falsy, hp'ne]
  have hbeq : (hash_password p' == hash_password p) = false :=
    beq_eq_false_iff_ne.mpr hdiff
  refine ⟨by simp [add_user, hbool], ?_, ?_⟩
  · simp [authenticate, hfu, hfp, hlook]
  · simp [authenticate, hfu, hfp', hlook, hbeq]

/-- Spot check of `authenticate_after_add` on the seed store with charlie. -/
theorem authenticate_after_add_spot :
    (add_user "charlie" "charlie789" "charlie@example.com" USER_STORE).1 = true ∧
    authenticate (some "charlie") (some "charlie789")
      (add_user "charlie" "charlie789" "charlie@example.com" USER_STORE).2 = true ∧
    authenticate (some "charlie") (some "wrong")
      (add_user "charlie" "charlie789" "charlie@example.com" USER_STORE).2 = false :=
  authenticate_after_add USER_STORE "charlie" "charlie789" "wrong" "charlie@example.com"
    (by decide) (by decide) (by decide) (by decide) (by decide)

/-- C3: a successful `add_user` assigns the id `maxUserId s + 1`, where
`maxUserId` is the maximum of the stored ids (0 on the empty store); on the
seed store, charlie receives id 3, and after removing bob (id 2), dave
receives id 4 (max of remaining ids 1 and 3, plus one), not 2. -/
theorem add_user_assigns_max_succ (s : Store) (u p e : String)
    (hu : s.lookup u = none) :
    ((add_user u p e s).1 = true ∧
     ((add_user u p e s).2).lookup u =
       some { password_hash := hash_password p, user_id := maxUserId s + 1, email := e }) ∧
    (∀ x ∈ s.map fun r => r.2.user_id, x ≤ maxUserId s) ∧
    (s = [] → maxUserId s = 0) ∧
    (s ≠ [] → maxUserId s ∈ s.map fun r => r.2.user_id) ∧
    ((((add_user "charlie" "charlie789" "charlie@example.com" USER_STORE).2).lookup
        "charlie").map fun r => r.user_id) = some 3 ∧
    ((((add_user "dave" "dave123" "dave@example.com"
          (remove_user "bob"
            (add_user "charlie" "charlie789" "charlie@example.com" USER_STORE).2).2).2).lookup
        "dave").map fun r => r.user_id) = some 4 := by
  have hbool : (s.lookup u).isSome = false := by rw [hu]; rfl
  refine ⟨⟨by simp [add_user, hbool], add_user_lookup_self p e hu⟩,
    fun x hx => le_maxUserId_of_mem_ids hx, fun hs => by subst hs; rfl,
    maxUserId_mem, by decide, by decide⟩

/-- Spot check of `add_user_assigns_max_succ` with a fresh username. -/
theorem add_user_assigns_max_succ_spot :
    ((add_user "zoe" "zoepw" "zoe@example.com" USER_STORE).2).lookup "zoe" =
      some { password_hash := hash_password "zoepw", user_id := maxUserId USER_STORE + 1,
             email := "zoe@example.com" } :=
  (add_user_assigns_max_succ USER_STORE "zoe" "zoepw" "zoe@example.com" (by decide)).1.2

/-- C7: on a unique-key store, `remove_user` of a present username returns
`True` and makes the username absent; of an absent username it returns `False`
and leaves the store (hence its size) unchanged. -/
theorem remove_user_correct (s : Store) (u : String) (hwf : StoreWF s) :
    ((s.lookup u).isSome = true →
      (remove_user u s).1 = true ∧ ((remove_user u s).2).lookup u = none) ∧
    ((s.lookup u).isSome = false →
      remove_user u s = (false, s) ∧ ((remove_user u s).2).length = s.length) := by
  constructor
  · intro h
    have h2 : (remove_user u s).2 = s.eraseP fun e => e.1 == u := by
      simp [remove_user, h]
    refine ⟨by simp [remove_user, h], ?_⟩
    rw [h2]
    exact lookup_eraseP_self u hwf
  · intro h
    have h1 : remove_user u s = (false, s) := by simp [remove_user, h]
    exact ⟨h1, by rw [h1]⟩

/-- Spot check of `remove_user_correct`: removing alice succeeds and makes
her absent; removing charlie fails and changes nothing. -/
theorem remove_user_correct_spot :
    ((remove_user "alice" USER_STORE).1 = true ∧
      ((remove_user "alice" USER_STORE).2).lookup "alice" = none) ∧
    remove_user "charlie" USER_STORE = (false, USER_STORE) :=
  ⟨(remove_user_correct USER_STORE "alice" (by decide)).1 (by decide),
   ((remove_user_correct USER_STORE "charlie" (by decide)).2 (by decide)).1⟩

/-- C10: adding the empty username to a store not containing it succeeds and
inserts a record under the key `""`, yet `authenticate` with the empty
username is `False` for every password and every store, so the inserted
account can never authenticate. -/
theorem add_user_empty_username (s : Store) (p e : String) (h : s.lookup "" = none) :
    (add_user "" p e s).1 = true ∧
    ((add_user "" p e s).2).lookup "" =
      some { password_hash := hash_password p, user_id := maxUserId s + 1, email := e } ∧
    (∀ (q : Option String) (t : Store), authenticate (some "") q t = false) := by
  have hbool : (s.lookup "").isSome = false := by rw [h]; rfl
  refine ⟨by simp [add_user, hbool], add_user_lookup_self p e h, ?_⟩
  intro q t
  simp [authenticate, falsy]

/-- Spot check of `add_user_empty_username` on the seed store. -/
theorem add_user_empty_username_spot :
    (add_user "" "pw123" "empty@example.com" USER_STORE).1 = true ∧
    authenticate (some "") (some "pw123")
      (add_user "" "pw123" "empty@example.com" USER_STORE).2 = false := by
  have h := add_user_empty_username USER_STORE "pw123" "empty@example.com" (by decide)
  exact ⟨h.1, h.2.2 (some "pw123") _⟩

/-! ### Distinctness of user ids -/

/-- `add_user` preserves distinctness of the stored user ids: a successful add
appends `maxUserId s + 1`, which exceeds every stored id. -/
theorem ids_nodup_add (u p e : String) {s : Store}
    (h : ((s.map fun r => r.2.user_id)).Nodup) :
    ((((add_user u p e s).2).map fun r => r.2.user_id)).Nodup := by
  by_cases hu : (s.lookup u).isSome = true
  · simpa [add_user, hu] using h
  · have hb : (s.lookup u).isSome = false := Bool.eq_false_iff.mpr hu
    simp only [add_user, hb, Bool.false_eq_true, if_false, List.map_append, List.map_cons,
      List.map_nil]
    rw [List.nodup_append]
    refine ⟨h, List.nodup_singleton _, ?_⟩
    intro x hx hx'
    simp only [List.mem_singleton] at hx'
    subst hx'
    have := le_maxUserId_of_mem_ids hx
    omega

/-- `remove_user` preserves distinctness of the stored user ids (erasure gives
a sublist). -/
theorem ids_nodup_remove (u : String) {s : Store}
    (h : ((s.map fun r => r.2.user_id)).Nodup) :
    ((((remove_user u s).2).map fun r => r.2.user_id)).Nodup := by
  by_cases hu : (s.lookup u).isSome = true
  · have h2 : (remove_user u s).2 = s.eraseP fun e => e.1 == u := by
      simp [remove_user, hu]
    rw [h2]
    exact List.Nodup.sublist ((List.eraseP_sublist s).map _) h
  · have hb : (s.lookup u).isSome = false := Bool.eq_false_iff.mpr hu
    simpa [remove_user, hb] using h

/-- C9: from the seed store, every sequence of module calls keeps the stored
user ids pairwise distinct (`authenticate` and `get_user` never mutate the
store), and each successful add assigns an id strictly greater than every id
currently in the store. -/
theorem user_ids_distinct :
    (∀ s : Store, Reachable s → ((s.map fun r => r.2.user_id)).Nodup) ∧
    (∀ (s : Store) (r : String × UserRecord), r ∈ s → r.2.user_id < maxUserId s + 1) := by
  constructor
  · intro s h
    induction h with
    | seed => decide
    | add u p e _ ih => exact ids_nodup_add u p e ih
    | remove u _ ih => exact ids_nodup_remove u ih
  · intro s r hr
    have := le_maxUserId_of_mem_ids (List.mem_map_of_mem (fun r => r.2.user_id) hr)
    omega

/-- Spot check of `user_ids_distinct` on a store reached by one add. -/
theorem user_ids_distinct_spot :
    ((((add_user "charlie" "pw123" "charlie@example.com" USER_STORE).2).map
      fun r => r.2.user_id)).Nodup :=
  user_ids_distinct.1 _
    (Reachable.add "charlie" "pw123" "charlie@example.com" Reachable.seed)

/-! ### Exception behaviour under dynamic typing -/

/-- C2 counterexample: `hash_password(None)` evaluates `None.encode()` and
raises `AttributeError`; likewise `add_user` with a fresh username and a
`None` password raises inside `hash_password`. -/
theorem operations_raise_cex :
    hash_passwordD none = Except.error "AttributeError" ∧
    add_userD (some "charlie") none (some "charlie@example.com") [] =
      Except.error "AttributeError" :=
  ⟨rfl, rfl⟩

/-- C2 (amended): `authenticate`, `get_user` and `remove_user` never raise for
any string-or-`None` input; `hash_password` never raises on a string;
`add_user` never raises when the username is already present or the password
is a string, and raises `AttributeError` exactly when a fresh username comes
with a `None` password. -/
theorem operations_no_raise_amended :
    (∀ (u p : Option String) (s : DStore), (authenticateD u p s).isOk = true) ∧
    (∀ i : Option Nat, (get_userD i).isOk = true) ∧
    (∀ (u : Option String) (s : DStore), (remove_userD u s).isOk = true) ∧
    (∀ p : String, hash_passwordD (some p) = Except.ok (hash_password p)) ∧
    (∀ (u p e : Option String) (s : DStore),
      ((s.lookup u).isSome = true ∨ p ≠ none) → (add_userD u p e s).isOk = true) ∧
    (∀ (u e : Option String) (s : DStore),
      (s.lookup u).isSome = false →
        add_userD u none e s = Except.error "AttributeError") := by
  refine ⟨?_, fun i => rfl, ?_, fun p => rfl, ?_, ?_⟩
  · intro u p s
    match p with
    | none =>
      simp [authenticateD, falsy, Except.isOk, Except.toBool]
    | some q =>
      unfold authenticateD
      split
      · rfl
      · split
        · rfl
        · rfl
  · intro u s
    unfold remove_userD
    split <;> rfl
  · intro u p e s h
    rcases h with h | h
    · simp [add_userD, h, Except.isOk, Except.toBool]
    · match p, h with
      | some q, _ =>
        unfold add_userD
        split
        · rfl
        · rfl
  · intro u e s h
    unfold add_userD
    rw [if_neg (by simp [h])]
    rfl

/-- Spot check of `operations_no_raise_amended`: a fresh add with a string
password does not raise. -/
theorem operations_no_raise_amended_spot :
    (add_userD (some "charlie") (some "pw123") (some "charlie@example.com") []).isOk = true :=
  operations_no_raise_amended.2.2.2.2.1 (some "charlie") (some "pw123")
    (some "charlie@example.com") [] (Or.inr (by decide))

end Auth
